import Mathlib

/-!
# SPECTRA — formal model of the plan-validation and execution-polling core

Shallow embedding of the SPECTRA repository's core decision logic:

* `src/brain/ai_engine.py` — `extract_first_json`, the strict strategy-schema
  validation stage and `AIEngine.get_strategy`;
* `src/core/exceptions.py` — the `FailureReason` taxonomy and the structured
  `SpectraException` envelope;
* `src/core/orchestrator.py` — `SpectraOrchestrator.run`, the
  recon → plan → dispatch → poll state machine.

Python dict/JSON values are modelled by the inductive type `Json`; machine
floats that can only arise as JSON numbers are modelled by `ℚ`; code that can
raise is modelled with `Except`/`Option`; external collaborators (scanner,
LLM transport, Metasploit RPC, exploiter, post-exploit unit) are modelled as
oracle inputs bundled in an environment record, since the repository treats
them as I/O shims with no decision logic of their own.
-/

/-- A JSON value as produced by the Python function `json.loads`: `null`, booleans,
numbers (ints and floats collapsed into `ℚ`), strings, arrays and objects
(assoc lists of string keys). -/
inductive Json where
  | null : Json
  | bool : Bool → Json
  | num : ℚ → Json
  | str : String → Json
  | arr : List Json → Json
  | obj : List (String × Json) → Json

/-- Python truthiness of a JSON value (`bool(x)`): `None`, `False`, `0`,
`""`, `[]`, `{}` are falsy, everything else truthy. -/
def Json.truthy : Json → Bool
  | .null => false
  | .bool b => b
  | .num q => decide (q ≠ 0)
  | .str s => decide (s ≠ "")
  | .arr xs => !xs.isEmpty
  | .obj kvs => !kvs.isEmpty

/-- Python `d.get(key)` on a dict modelled as an assoc list (keys of a dict
are unique, so first-match lookup agrees with dict lookup). -/
def jget : List (String × Json) → String → Option Json
  | [], _ => none
  | (k, v) :: rest, key => if k = key then some v else jget rest key

/-- Python `d.get(key, default)` on a dict. -/
def jgetD (kvs : List (String × Json)) (key : String) (dflt : Json) : Json :=
  (jget kvs key).getD dflt

/-! ## `extract_first_json` (src/brain/ai_engine.py, lines 21–46)

The scanner walks the text from the first `'\x7b'`, tracking brace depth, an
in-string flag and an escape flag exactly as the Python loop does, and
returns at the first closing brace seen at depth zero outside a string. -/

/-- The body of the Python `for i in range(start, len(text))` loop: given the
remaining characters, the current depth, `in_string`, `escape` and the index
`i` of the next character (relative to the scan start), return the relative
index of the depth-zero-closing brace, or `none` if the scan runs off the end
of the text. -/
def scanBalanced : List Char → Int → Bool → Bool → Nat → Option Nat
  | [], _, _, _, _ => none
  | c :: rest, depth, inString, escape, i =>
    let inString' := if c == '"' && !escape then !inString else inString
    if inString' && c == '\\' && !escape then
      scanBalanced rest depth inString' true (i + 1)
    else
      if !inString' then
        if c == '{' then
          scanBalanced rest (depth + 1) inString' false (i + 1)
        else
          if c == '}' then
            if depth - 1 = 0 then some i
            else scanBalanced rest (depth - 1) inString' false (i + 1)
          else scanBalanced rest depth inString' false (i + 1)
      else scanBalanced rest depth inString' false (i + 1)

/-- Model of `text.find` for an opening brace on a list of characters: index of the first opening
brace, or `none` (Python's `-1`). -/
def findBrace : List Char → Option Nat
  | [] => none
  | c :: rest =>
    if c == '{' then some 0 else (findBrace rest).map (fun n => n + 1)

/-- Core of `extract_first_json` on a list of characters: find the first `'\x7b'`,
scan from it, and slice `text[start:i+1]` at the depth-zero close. -/
def extractFirstJsonL (cs : List Char) : Option (List Char) :=
  match findBrace cs with
  | none => none
  | some start =>
    match scanBalanced (cs.drop start) 0 false false 0 with
    | none => none
    | some j => some ((cs.drop start).take (j + 1))

/-- The function `extract_first_json(text)` from src/brain/ai_engine.py.  An empty `text`
has no brace, so the Python `if not text: return None` guard is subsumed by
the `find` returning `none`. -/
def extract_first_json (text : String) : Option String :=
  (extractFirstJsonL text.data).map String.mk

/-- Spec-side notion (following the words of the spec, §4.1/§8): a character
span is a *minimal balanced object* when it starts with `'\x7b'` and the
string-aware depth scan started on it closes exactly at its final
character (in particular no proper prefix closes earlier, since the scan
reports the first depth-zero close). -/
def isBalancedSpan (cs : List Char) : Bool :=
  !cs.isEmpty && cs.head? == some '{'
    && scanBalanced cs 0 false false 0 == some (cs.length - 1)

theorem scanBalanced_append (t : List Char) :
    ∀ (cs : List Char) (d : Int) (istr esc : Bool) (i j : Nat),
      scanBalanced cs d istr esc i = some j →
      scanBalanced (cs ++ t) d istr esc i = some j := by
  intro cs
  induction cs with
  | nil => intro d istr esc i j h; simp [scanBalanced] at h
  | cons c rest ih =>
    intro d istr esc i j h
    simp only [scanBalanced, List.cons_append] at h ⊢
    set istr1 : Bool := if (c == '"' && !esc) = true then !istr else istr
      with histr1
    by_cases h1 : (istr1 && c == '\\' && !esc) = true
    · rw [if_pos h1] at h ⊢; exact ih _ _ _ _ _ h
    · rw [if_neg h1] at h ⊢
      by_cases h2 : (!istr1) = true
      · rw [if_pos h2] at h ⊢
        by_cases h3 : (c == '{') = true
        · rw [if_pos h3] at h ⊢; exact ih _ _ _ _ _ h
        · rw [if_neg h3] at h ⊢
          by_cases h4 : (c == '}') = true
          · rw [if_pos h4] at h ⊢
            by_cases h5 : d - 1 = 0
            · rw [if_pos h5] at h ⊢; exact h
            · rw [if_neg h5] at h ⊢; exact ih _ _ _ _ _ h
          · rw [if_neg h4] at h ⊢; exact ih _ _ _ _ _ h
      · rw [if_neg h2] at h ⊢; exact ih _ _ _ _ _ h

theorem findBrace_append (pre rest : List Char) (c : Char)
    (hpre : '{' ∉ pre) (hc : c = '{') :
    findBrace (pre ++ c :: rest) = some pre.length := by
  induction pre with
  | nil => simp [findBrace, hc]
  | cons p ps ih =>
    simp only [List.mem_cons, not_or] at hpre
    have hp : (p == '{') = false := by
      simp only [beq_eq_false_iff_ne, ne_eq]
      exact fun h => hpre.1 h.symm
    simp only [List.cons_append, findBrace, hp, Bool.false_eq_true, if_false,
      List.append_eq, ih hpre.2, Option.map_some', List.length_cons]

theorem extractFirstJsonL_balanced (pre obj post : List Char)
    (hpre : '{' ∉ pre) (hobj : isBalancedSpan obj = true) :
    extractFirstJsonL (pre ++ obj ++ post) = some obj := by
  have hand := hobj
  simp only [isBalancedSpan, Bool.and_eq_true] at hand
  obtain ⟨⟨hne, hhead⟩, hscan⟩ := hand
  rw [beq_iff_eq] at hhead
  rw [beq_iff_eq] at hscan
  cases obj with
  | nil => simp at hhead
  | cons c tail =>
    have hc : c = '{' := by simpa using hhead
    subst hc
    have hfind : findBrace (pre ++ '{' :: (tail ++ post)) = some pre.length :=
      findBrace_append pre (tail ++ post) '{' hpre rfl
    have hscan2 :
        scanBalanced ('{' :: (tail ++ post)) 0 false false 0
          = some (('{' :: tail).length - 1) := by
      have h2 := scanBalanced_append post _ _ _ _ _ _ hscan
      simpa using h2
    simp only [extractFirstJsonL, hfind, List.append_assoc, List.cons_append,
      List.drop_left, hscan2, List.length_cons, Nat.add_sub_cancel,
      List.take_succ_cons, List.take_left]

/-- Text used in the C5 witness: balanced object with an escaped quote and a
brace inside a string value, embedded in prose. -/
def c5Pre : String := "I think this works: "

def c5Obj : String := "\x7b\"module\": \"m \\\" \x7b ok\", \"payload\": \"p\"\x7d"

def c5Post : String := " thanks"

/-- Prose whose quoted string contains an opening brace, followed by a
clean balanced object. -/
def c5CexText : String := "say \"\x7b\" ok \x7b\"a\": 1\x7d"

def c5CexPre : String := "say \"\x7b\" ok "

def c5CexObj : String := "\x7b\"a\": 1\x7d"

/-- C5 (amended): for every input text of the form `pre ++ obj ++ post` where
the prose `pre` before the object contains no opening brace and `obj` is a
minimal string-aware balanced span, `extract_first_json` returns exactly
`obj` — braces inside the object's string literals (including escaped
quotes) do not affect balance counting, and the trailing prose is arbitrary.
(When the scan from the first opening brace never reaches a depth-zero close,
or no opening brace exists, the function returns nothing, by definition of
`extractFirstJsonL`.) -/
theorem extract_first_json_minimal_balanced (pre obj post : List Char)
    (hpre : '{' ∉ pre) (hobj : isBalancedSpan obj = true) :
    extract_first_json (String.mk (pre ++ obj ++ post))
      = some (String.mk obj) := by
  show (extractFirstJsonL (pre ++ obj ++ post)).map String.mk
      = some (String.mk obj)
  rw [extractFirstJsonL_balanced pre obj post hpre hobj]
  rfl

/-- Witness for C5 (amended) on a concrete prose-wrapped object. -/
theorem extract_first_json_minimal_balanced_witness :
    '{' ∉ c5Pre.data ∧ isBalancedSpan c5Obj.data = true ∧
    extract_first_json (String.mk (c5Pre.data ++ c5Obj.data ++ c5Post.data))
      = some (String.mk c5Obj.data) :=
  ⟨by decide, by decide,
    extract_first_json_minimal_balanced c5Pre.data c5Obj.data c5Post.data
      (by decide) (by decide)⟩

/-- C5 counterexample: the text `say "\x7b" ok \x7b"a": 1\x7d` embeds the minimal
balanced object `\x7b"a": 1\x7d` in surrounding prose that has a brace inside a
quoted string; the claim requires that object to be returned, but the code
starts scanning at the first literal brace — the one inside the prose's
quotes — so the scan never closes and `extract_first_json` returns nothing. -/
theorem extract_first_json_quoted_prose_cex :
    isBalancedSpan c5CexObj.data = true ∧
    c5CexPre ++ c5CexObj = c5CexText ∧
    extract_first_json c5CexText = none :=
  ⟨by decide, by decide, by decide⟩

/-! ## Strategy schema validation (src/brain/ai_engine.py, lines 8–18, 105–149) -/

/-- The `StrategySchema` field names, in declaration order. -/
def strategyKeys : List String :=
  ["module", "payload", "options", "vector", "rationale", "manual_review",
   "confidence"]

/-- The pydantic `StrategySchema` model: `module: str`, `payload: str`,
`options: Dict[str, Any]` (default empty), `vector: str`,
`rationale: Optional[str]`, `manual_review: Optional[bool]` (default
`False`), `confidence: Optional[float]`. -/
structure StrategySchema where
  module : String
  payload : String
  options : List (String × Json)
  vector : String
  rationale : Option String
  manual_review : Option Bool
  confidence : Option ℚ

/-- A required `str` field: must be present and a JSON string. -/
def fieldStr : Option Json → Option String
  | some (.str s) => some s
  | _ => none

/-- Field `options: Dict[str, Any] = Field(default_factory=dict)`: absent defaults
to the empty dict; a present value must be a JSON object (the field is not
`Optional`, so `null` is rejected). -/
def fieldDict : Option Json → Option (List (String × Json))
  | none => some []
  | some (.obj kvs) => some kvs
  | _ => none

/-- Field `rationale: Optional[str] = None`: absent or `null` gives `None`. -/
def fieldOptStr : Option Json → Option (Option String)
  | none => some none
  | some .null => some none
  | some (.str s) => some (some s)
  | _ => none

/-- Field `manual_review: Optional[bool] = False`: absent defaults to `False`,
`null` gives `None`, a boolean stays itself. -/
def fieldOptBool : Option Json → Option (Option Bool)
  | none => some (some false)
  | some .null => some none
  | some (.bool b) => some (some b)
  | _ => none

/-- Field `confidence: Optional[float] = None`: absent or `null` gives `None`; any
JSON number (int or float) is a valid float. -/
def fieldOptNum : Option Json → Option (Option ℚ)
  | none => some none
  | some .null => some none
  | some (.num q) => some (some q)
  | _ => none

/-- Validation `StrategySchema(**data)` with `Config.extra = "forbid"`, modelled as
strict JSON-type checking of the declared field types: a value is accepted
exactly when it already has the declared JSON type (version-specific pydantic
string/number coercions are not modelled), and any key outside the schema is
rejected.  `none` is where pydantic raises `ValidationError`. -/
def validateStrategySchema (data : List (String × Json)) :
    Option StrategySchema :=
  if data.all (fun kv => strategyKeys.contains kv.1) then
    match fieldStr (jget data "module"), fieldStr (jget data "payload"),
        fieldDict (jget data "options"), fieldStr (jget data "vector"),
        fieldOptStr (jget data "rationale"),
        fieldOptBool (jget data "manual_review"),
        fieldOptNum (jget data "confidence") with
    | some m, some p, some o, some v, some r, some mr, some cf =>
        some ⟨m, p, o, v, r, mr, cf⟩
    | _, _, _, _, _, _, _ => none
  else none

/-- Rendering `strat.dict()`: all seven fields in declaration order, `None` rendered as
JSON null. -/
def StrategySchema.toDict (s : StrategySchema) : List (String × Json) :=
  [("module", .str s.module), ("payload", .str s.payload),
   ("options", .obj s.options), ("vector", .str s.vector),
   ("rationale", (s.rationale.map Json.str).getD .null),
   ("manual_review", (s.manual_review.map Json.bool).getD .null),
   ("confidence", (s.confidence.map Json.num).getD .null)]

/-- The dict `{"manual_review": True, "rationale": r}` returned on every
manual-review path. -/
def manualReviewDict (r : Json) : Json :=
  .obj [("manual_review", .bool true), ("rationale", r)]

/-- Assignment `obj["manual_review"] = True` on a rendered strategy dict. -/
def setManualReviewTrue (kvs : List (String × Json)) : List (String × Json) :=
  kvs.map (fun kv => if kv.1 = "manual_review" then (kv.1, Json.bool true) else kv)

/-- The validation stage of `AIEngine.get_strategy`
(src/brain/ai_engine.py lines 132–149) applied to the decoded JSON object:
the manual-review short-circuit, strict pydantic validation, the vector-enum
check, and the `require_manual_approval` override, in source order.
(`extract_first_json` guarantees the candidate starts with an opening brace,
so a successful `json.loads` always yields a dict and the
`isinstance(data, dict)` test is always true here.)  Pydantic's
`ValidationError` message text is summarized by a fixed rationale string. -/
def validate_decoded (data : List (String × Json))
    (require_manual_approval : Bool) : Json :=
  if (jgetD data "manual_review" .null).truthy then
    manualReviewDict (jgetD data "rationale" (.str "LLM signaled manual review"))
  else
    match validateStrategySchema data with
    | none =>
        manualReviewDict (.str "ValidationError: strategy failed schema validation")
    | some strat =>
      if strat.vector = "system" ∨ strat.vector = "web" then
        if require_manual_approval then
          Json.obj (setManualReviewTrue strat.toDict)
        else Json.obj strat.toDict
      else manualReviewDict (.str ("Invalid vector: " ++ strat.vector))

/-- Method `AIEngine.get_strategy` (src/brain/ai_engine.py lines 105–149).  The LLM
transport and `json.loads` are external: `llmResponse` is `none` when
`self.llm.predict` raises (that is, after the adapter's bounded retries are
exhausted) and `some raw` when it returns text; `decode` models `json.loads`
restricted to candidates produced by `extract_first_json`, which always start
with an opening brace — a successful parse of such text is always a JSON
object — with `none` standing for `json.JSONDecodeError`. -/
def get_strategy (decode : String → Option (List (String × Json)))
    (llmResponse : Option String) (require_manual_approval : Bool) : Json :=
  match llmResponse with
  | none => manualReviewDict (.str "LLM unavailable or prediction error")
  | some raw =>
    match extract_first_json raw with
    | none => manualReviewDict (.str "LLM did not return JSON")
    | some jtext =>
      match decode jtext with
      | none => manualReviewDict (.str "Invalid JSON from LLM")
      | some data => validate_decoded data require_manual_approval

/-- Shape test: a JSON object whose keys are exactly the seven schema fields
in declaration order — the shape of every validated plan dict. -/
def isPlanDict : Json → Bool
  | .obj kvs => kvs.map Prod.fst == strategyKeys
  | _ => false

/-- Shape test: `{"manual_review": True, "rationale": r}`. -/
def isMRDict : Json → Bool
  | .obj ((k1, .bool true) :: (k2, _) :: rest) =>
      k1 == "manual_review" && k2 == "rationale" && rest.isEmpty
  | _ => false

/-- Spec-side characterization, following the words of C3: all required fields
present and correctly typed, optional fields correctly typed when present,
no keys outside the Plan schema, and the vector value in the enum. -/
def specSchemaOK (data : List (String × Json)) : Bool :=
  data.all (fun kv => strategyKeys.contains kv.1)
  && (fieldStr (jget data "module")).isSome
  && (fieldStr (jget data "payload")).isSome
  && (fieldDict (jget data "options")).isSome
  && (fieldStr (jget data "vector")).isSome
  && (fieldOptStr (jget data "rationale")).isSome
  && (fieldOptBool (jget data "manual_review")).isSome
  && (fieldOptNum (jget data "confidence")).isSome
  && (match fieldStr (jget data "vector") with
      | some v => v == "system" || v == "web"
      | none => false)


theorem fieldStr_inv {o : Option Json} {s : String}
    (h : fieldStr o = some s) : o = some (.str s) := by
  cases o with
  | none => simp [fieldStr] at h
  | some j => cases j <;> simp_all [fieldStr]

theorem fieldDict_render {o : Option Json} {kvs : List (String × Json)}
    (h : fieldDict o = some kvs) : Json.obj kvs = o.getD (.obj []) := by
  cases o with
  | none => simp [fieldDict] at h; simp [h]
  | some j => cases j <;> simp_all [fieldDict]

theorem fieldOptStr_render {o : Option Json} {r : Option String}
    (h : fieldOptStr o = some r) :
    (r.map Json.str).getD .null = o.getD .null := by
  cases o with
  | none => simp [fieldOptStr] at h; simp [← h]
  | some j => cases j <;> simp_all [fieldOptStr] <;> simp [← h]

theorem fieldOptBool_render {o : Option Json} {r : Option Bool}
    (h : fieldOptBool o = some r) :
    (r.map Json.bool).getD .null = o.getD (.bool false) := by
  cases o with
  | none => simp [fieldOptBool] at h; simp [← h]
  | some j => cases j <;> simp_all [fieldOptBool] <;> simp [← h]

theorem fieldOptNum_render {o : Option Json} {r : Option ℚ}
    (h : fieldOptNum o = some r) :
    (r.map Json.num).getD .null = o.getD .null := by
  cases o with
  | none => simp [fieldOptNum] at h; simp [← h]
  | some j => cases j <;> simp_all [fieldOptNum] <;> simp [← h]

theorem validateStrategySchema_some_of {data : List (String × Json)}
    {m p v : String} {o : List (String × Json)} {r : Option String}
    {mr : Option Bool} {cf : Option ℚ}
    (hall : data.all (fun kv => strategyKeys.contains kv.1) = true)
    (h1 : fieldStr (jget data "module") = some m)
    (h2 : fieldStr (jget data "payload") = some p)
    (h3 : fieldDict (jget data "options") = some o)
    (h4 : fieldStr (jget data "vector") = some v)
    (h5 : fieldOptStr (jget data "rationale") = some r)
    (h6 : fieldOptBool (jget data "manual_review") = some mr)
    (h7 : fieldOptNum (jget data "confidence") = some cf) :
    validateStrategySchema data = some ⟨m, p, o, v, r, mr, cf⟩ := by
  simp only [validateStrategySchema, hall, eq_self_iff_true, if_true,
    h1, h2, h3, h4, h5, h6, h7]

theorem validateStrategySchema_inv {data : List (String × Json)}
    {strat : StrategySchema} (h : validateStrategySchema data = some strat) :
    data.all (fun kv => strategyKeys.contains kv.1) = true
    ∧ fieldStr (jget data "module") = some strat.module
    ∧ fieldStr (jget data "payload") = some strat.payload
    ∧ fieldDict (jget data "options") = some strat.options
    ∧ fieldStr (jget data "vector") = some strat.vector
    ∧ fieldOptStr (jget data "rationale") = some strat.rationale
    ∧ fieldOptBool (jget data "manual_review") = some strat.manual_review
    ∧ fieldOptNum (jget data "confidence") = some strat.confidence := by
  unfold validateStrategySchema at h
  by_cases hall : data.all (fun kv => strategyKeys.contains kv.1) = true
  · rw [if_pos hall] at h
    split at h
    · injection h with h2
      subst h2
      refine ⟨hall, ?_, ?_, ?_, ?_, ?_, ?_, ?_⟩ <;> assumption
    · simp at h
  · rw [if_neg hall] at h
    simp at h

theorem specSchemaOK_some {data : List (String × Json)}
    (h : specSchemaOK data = true) :
    ∃ strat, validateStrategySchema data = some strat
      ∧ (strat.vector = "system" ∨ strat.vector = "web") := by
  simp only [specSchemaOK, Bool.and_eq_true] at h
  obtain ⟨⟨⟨⟨⟨⟨⟨⟨hall, h1⟩, h2⟩, h3⟩, h4⟩, h5⟩, h6⟩, h7⟩, hvec⟩ := h
  rw [Option.isSome_iff_exists] at h1 h2 h3 h4 h5 h6 h7
  obtain ⟨m, h1⟩ := h1
  obtain ⟨p, h2⟩ := h2
  obtain ⟨o, h3⟩ := h3
  obtain ⟨v, h4⟩ := h4
  obtain ⟨r, h5⟩ := h5
  obtain ⟨mr, h6⟩ := h6
  obtain ⟨cf, h7⟩ := h7
  refine ⟨⟨m, p, o, v, r, mr, cf⟩,
    validateStrategySchema_some_of hall h1 h2 h3 h4 h5 h6 h7, ?_⟩
  rw [h4] at hvec
  simpa using hvec

theorem specSchemaOK_of_some {data : List (String × Json)}
    {strat : StrategySchema} (h : validateStrategySchema data = some strat)
    (hv : strat.vector = "system" ∨ strat.vector = "web") :
    specSchemaOK data = true := by
  obtain ⟨hall, h1, h2, h3, h4, h5, h6, h7⟩ := validateStrategySchema_inv h
  simp only [specSchemaOK, Bool.and_eq_true, hall, h1, h2, h3, h4, h5, h6, h7,
    Option.isSome_some, true_and]
  rcases hv with hv | hv <;> simp [hv]

theorem isPlanDict_mr (x : Json) : isPlanDict (manualReviewDict x) = false := rfl

theorem isPlanDict_toDict (s : StrategySchema) :
    isPlanDict (.obj s.toDict) = true := rfl

theorem validate_decoded_none {data : List (String × Json)} (req : Bool)
    (hmr : (jgetD data "manual_review" .null).truthy = false)
    (hv : validateStrategySchema data = none) :
    validate_decoded data req
      = manualReviewDict (.str "ValidationError: strategy failed schema validation") := by
  unfold validate_decoded
  rw [if_neg (by simp [hmr]), hv]

theorem validate_decoded_some {data : List (String × Json)} (req : Bool)
    {strat : StrategySchema}
    (hmr : (jgetD data "manual_review" .null).truthy = false)
    (hv : validateStrategySchema data = some strat) :
    validate_decoded data req =
      if strat.vector = "system" ∨ strat.vector = "web" then
        if req then Json.obj (setManualReviewTrue strat.toDict)
        else Json.obj strat.toDict
      else manualReviewDict (.str ("Invalid vector: " ++ strat.vector)) := by
  unfold validate_decoded
  rw [if_neg (by simp [hmr]), hv]

/-- C3: for every decoded candidate mapping without a truthy `manual_review`
key, the validation stage returns a validated plan exactly when the mapping
has all required fields present and correctly typed, contains no keys
outside the Plan schema, and has a vector value in the allowed enum; any
violation yields the manual-review dict with a rationale — never a plan —
and a returned plan carries the input's values unchanged, with declared
defaults only for absent optional fields, never a silently coerced value. -/
theorem validate_decoded_strict (data : List (String × Json))
    (hmr : (jgetD data "manual_review" .null).truthy = false) :
    (isPlanDict (validate_decoded data false) = true ↔ specSchemaOK data = true)
    ∧ (specSchemaOK data = false →
        ∃ r, validate_decoded data false = manualReviewDict (.str r))
    ∧ (specSchemaOK data = true →
        validate_decoded data false = Json.obj
          [("module", jgetD data "module" .null),
           ("payload", jgetD data "payload" .null),
           ("options", jgetD data "options" (.obj [])),
           ("vector", jgetD data "vector" .null),
           ("rationale", jgetD data "rationale" .null),
           ("manual_review", jgetD data "manual_review" (.bool false)),
           ("confidence", jgetD data "confidence" .null)]) := by
  rcases hv : validateStrategySchema data with _ | strat
  · rw [validate_decoded_none false hmr hv]
    refine ⟨?_, ?_, ?_⟩
    · simp only [isPlanDict_mr, Bool.false_eq_true, false_iff]
      intro hOK
      obtain ⟨strat, hs, _⟩ := specSchemaOK_some hOK
      rw [hv] at hs
      exact Option.noConfusion hs
    · intro _
      exact ⟨"ValidationError: strategy failed schema validation", rfl⟩
    · intro hOK
      obtain ⟨strat, hs, _⟩ := specSchemaOK_some hOK
      rw [hv] at hs
      exact Option.noConfusion hs
  · rw [validate_decoded_some false hmr hv]
    by_cases hvec : strat.vector = "system" ∨ strat.vector = "web"
    · rw [if_pos hvec]
      simp only [Bool.false_eq_true, if_false]
      have hOK : specSchemaOK data = true := specSchemaOK_of_some hv hvec
      obtain ⟨hall, h1, h2, h3, h4, h5, h6, h7⟩ := validateStrategySchema_inv hv
      refine ⟨?_, ?_, ?_⟩
      · simp [isPlanDict_toDict, hOK]
      · intro hbad
        rw [hOK] at hbad
        cases hbad
      intro hOK2
      have e1 := fieldStr_inv h1
      have e2 := fieldStr_inv h2
      have e3 := fieldDict_render h3
      have e4 := fieldStr_inv h4
      have e5 := fieldOptStr_render h5
      have e6 := fieldOptBool_render h6
      have e7 := fieldOptNum_render h7
      simp only [StrategySchema.toDict, jgetD, e1, e2, e4, Option.getD_some]
      rw [e3, e5, e6, e7]
    · rw [if_neg hvec]
      have hnot : specSchemaOK data = false := by
        rcases hOK : specSchemaOK data with _ | _
        · rfl
        · exfalso
          obtain ⟨strat2, hs2, hv2⟩ := specSchemaOK_some hOK
          rw [hv] at hs2
          injection hs2 with hs2
          subst hs2
          exact hvec hv2
      refine ⟨?_, ?_, ?_⟩
      · simp [isPlanDict_mr, hnot]
      · intro _
        exact ⟨_, rfl⟩
      · intro hOK
        rw [hOK] at hnot
        cases hnot

/-- The scenario-A mapping: all required fields present, no extra keys,
vector in the enum. -/
def c3Data : List (String × Json) :=
  [("module", .str "m"), ("payload", .str "p"),
   ("options", .obj []), ("vector", .str "system")]

/-- Witness for C3 at the scenario-A mapping: the validation stage returns
the plan dict. -/
theorem validate_decoded_strict_witness :
    (jgetD c3Data "manual_review" .null).truthy = false ∧
    specSchemaOK c3Data = true ∧
    isPlanDict (validate_decoded c3Data false) = true := by
  refine ⟨rfl, rfl, ?_⟩
  exact (validate_decoded_strict c3Data rfl).1.mpr rfl

/-- C4: for every decoded candidate mapping containing a truthy
`manual_review` key, the validation stage short-circuits — before any schema
validation — to the manual-review dict carrying the provided rationale, or
the default rationale when the key is absent, regardless of the validity of
every other field. -/
theorem manual_review_short_circuits (data : List (String × Json)) (req : Bool)
    (hmr : (jgetD data "manual_review" .null).truthy = true) :
    validate_decoded data req
      = manualReviewDict (jgetD data "rationale"
          (.str "LLM signaled manual review")) := by
  unfold validate_decoded
  rw [if_pos hmr]

/-- Witness for C4 on a mapping whose other fields are all malformed. -/
theorem manual_review_short_circuits_witness :
    (jgetD [("manual_review", Json.bool true), ("module", Json.num 3),
       ("bogus", Json.null)] "manual_review" .null).truthy = true ∧
    validate_decoded [("manual_review", Json.bool true),
       ("module", Json.num 3), ("bogus", Json.null)] true
      = manualReviewDict (.str "LLM signaled manual review") := by
  refine ⟨rfl, ?_⟩
  exact manual_review_short_circuits _ true rfl

/-! ## Failure taxonomy and structured errors (src/core/exceptions.py) -/

/-- Enum `FailureReason` (src/core/exceptions.py lines 8–15), a closed set. -/
inductive FailureReason where
  | PATCHED : FailureReason
  | INCOMPATIBLE : FailureReason
  | NETWORK_BLOCK : FailureReason
  | RPC_FAIL : FailureReason
  | LLM_FAIL : FailureReason
  | VALIDATION_FAIL : FailureReason
  | UNDEFINED : FailureReason
deriving DecidableEq

/-- The `.value` string of each `FailureReason` member. -/
def FailureReason.value : FailureReason → String
  | .PATCHED => "TARGET_PATCHED_OR_NOT_VULNERABLE"
  | .INCOMPATIBLE => "PAYLOAD_OR_ARCH_MISMATCH"
  | .NETWORK_BLOCK => "CONNECTION_REFUSED_OR_IPS_BLOCK"
  | .RPC_FAIL => "MSF_RPC_SYNC_ISSUE"
  | .LLM_FAIL => "LLM_FAILURE"
  | .VALIDATION_FAIL => "VALIDATION_ERROR"
  | .UNDEFINED => "UNDEFINED_INTERNAL_ERROR"

/-- An arbitrary non-Spectra Python exception, abstracted to its type name
and its `str(e)` rendering. -/
structure PyExc where
  typeName : String
  msg : String

/-- Class `SpectraException` (src/core/exceptions.py lines 18–62): message, reason,
details and the optional wrapped original exception (abstracted to its type
name; the captured traceback string is a runtime artifact outside the model
and is rendered as null by `toDict`). -/
structure SpectraExc where
  message : String
  reason : FailureReason
  details : Json
  originalType : Option String

/-- Method `SpectraException.to_dict` (lines 48–56): `details or \x7b\x7d` replaces a
falsy details value with the empty dict. -/
def SpectraExc.toDict (e : SpectraExc) : Json :=
  .obj [("message", .str e.message), ("reason", .str e.reason.value),
        ("details", if e.details.truthy then e.details else .obj []),
        ("original_type", (e.originalType.map Json.str).getD .null),
        ("traceback", .null)]

/-- An exception in flight: either a structured `SpectraException` or any
other Python exception. -/
inductive PyErr where
  | spectra : SpectraExc → PyErr
  | other : PyExc → PyErr

/-! ## Orchestrator (src/core/orchestrator.py) -/

/-- A session's attribute dict, abstracted to the only attribute the
orchestrator reads: `session_info.get("type")`. -/
structure SessInfo where
  type : Option String

/-- The structured dict `{"status", "reason", "details"}` that `run` returns
on every path. -/
structure RunResult where
  status : String
  reason : String
  details : Json

/-- Externally observable actions of a run: collaborator calls and reads of
the shared cancellation flag (with the value the read observed). -/
inductive Ev where
  | scanCall : Ev
  | checkFlag : Bool → Ev
  | llmCall : Ev
  | sessionRead : Ev
  | executeCall : Ev
  | consoleRead : Ev
  | upgradeCall : Ev
  | sleepSecs : Nat → Ev
deriving DecidableEq

/-- Default `poll_timeout` of `SpectraOrchestrator.__init__` (line 36). -/
def default_poll_timeout : ℚ := 60

/-- The fixed inter-tick delay `time.sleep(5)` (line 170), in seconds. -/
def pollTickSleep : Nat := 5

/-- The dict `{"status": "interrupted", "reason": "shutdown_requested", "details": {}}`,
returned at every cancellation check point. -/
def interruptedResult : RunResult :=
  ⟨"interrupted", "shutdown_requested", .obj []⟩

/-- The single outer exception boundary (lines 176–184): a
`SpectraException` becomes FAILURE with its reason code and `to_dict`
details; any other exception is wrapped into a fresh `SpectraException`
(whose reason defaults to UNDEFINED) and reported as FAILURE with the error
text.  The three raise sites of `run` feed this conversion directly, since
no handler between them and the boundary catches a `SpectraException`. -/
def spectraFailureResult : PyErr → RunResult
  | .spectra se => ⟨"failure", se.reason.value, se.toDict⟩
  | .other e =>
      ⟨"failure", FailureReason.UNDEFINED.value, .obj [("error", .str e.msg)]⟩

/-- The error `MSFRPCException("Failed to read MSF sessions", details={"error": str(e)},
original=e)` raised at the pre-dispatch snapshot (lines 96–100). -/
def msfReadErr (e : PyExc) : SpectraExc :=
  ⟨"Failed to read MSF sessions", .RPC_FAIL, .obj [("error", .str e.msg)],
   some e.typeName⟩

/-- The error `MSFRPCException("MSF session read failed during polling", original=e)`
raised inside a poll tick (lines 122–126); details default to the empty
dict. -/
def msfPollReadErr (e : PyExc) : SpectraExc :=
  ⟨"MSF session read failed during polling", .RPC_FAIL, .obj [],
   some e.typeName⟩

/-- The error `ExploitExecutionException("Exploit execution failed",
details={"plan": plan}, original=e)` (lines 104–112). -/
def exploitExecErr (plan : Json) (e : PyExc) : SpectraExc :=
  ⟨"Exploit execution failed", .INCOMPATIBLE, .obj [("plan", plan)],
   some e.typeName⟩

/-- Tests whether `pat` is a prefix of `cs`. -/
def listStartsWith : List Char → List Char → Bool
  | _, [] => true
  | [], _ :: _ => false
  | c :: cs, p :: ps => c == p && listStartsWith cs ps

/-- Python substring test `pat in s`, on character lists. -/
def listHasSub : List Char → List Char → Bool
  | [], pat => pat.isEmpty
  | c :: cs, pat => listStartsWith (c :: cs) pat || listHasSub cs pat

/-- Python substring test `pat in s`. -/
def strContainsSub (s pat : String) : Bool :=
  listHasSub s.data pat.data

/-- Python `s.lower()` (character-wise; the marker text compared against is plain
ASCII). -/
def strLower (s : String) : String :=
  String.mk (s.data.map Char.toLower)

/-- The terminal-failure test on console output (line 158):
`"Exploit completed" in log_data or "exploit completed" in
log_data.lower()`. -/
def terminalMarker (log_data : String) : Bool :=
  strContainsSub log_data "Exploit completed"
  || strContainsSub (strLower log_data) "exploit completed"

/-- Model of `new = current - pre_sessions` on the key sets, with `list(new)[0]`
determinized to the order of the current snapshot (Python set iteration
order is interpreter-specific; the spec itself leaves the selection among
several simultaneous new sessions arbitrary). -/
def newSessions (pre : List String) (cur : List (String × SessInfo)) :
    List String :=
  (cur.map Prod.fst).filter (fun sid => !pre.contains sid)

/-- The lookup `self.msf.client.sessions.list[s_id]` (line 131), modelled against the
same tick's snapshot (registry churn between the two reads of one tick is
not modelled; the key was just observed in the snapshot, so the lookup
succeeds). -/
def sessLookup : List (String × SessInfo) → String → SessInfo
  | [], _ => ⟨none⟩
  | (k, v) :: rest, sid => if k = sid then v else sessLookup rest sid

/-- Python `isinstance(plan, dict) and plan.get(key)` truthiness. -/
def jfieldTruthy (j : Json) (key : String) : Bool :=
  match j with
  | .obj kvs => (jgetD kvs key .null).truthy
  | _ => false

/-- Python `plan.get(key)` on a dict value. -/
def jfield : Json → String → Option Json
  | .obj kvs, key => jget kvs key
  | _, _ => none

/-- Oracle environment of one run: the behaviour of every external
collaborator, indexed where repeated calls can differ.

* `scanResult`: `scanner.scan_services()` — a value (contents unused by the
  modelled control flow) or a raised exception;
* `llmResponse`/`decode`: the LLM transport and `json.loads`, as in
  `get_strategy`;
* `shutdown n`: `shutdown_event.is_set()` at the n-th check (0 = after
  recon, 1 = before dispatch, 2 + k = start of poll tick k);
* `sessionsAt n`: the n-th read of `msf.client.sessions.list` (0 = the
  pre-dispatch snapshot, 1 + k = the read of poll tick k); `.error e` is a
  raised exception;
* `executeResult`: `exploiter.execute` — `.ok b` returns a console handle
  of truthiness `b`, `.error e` raises `e`;
* `elapsed k`: `time.time() - start` at the k-th loop-condition check
  (a real timestamp difference, modelled in `ℚ`);
* `poll_timeout`: the constructor parameter (default 60);
* `consoleData k`: `console.read()["data"]` at tick k, `none` for a raised
  read (swallowed by the code);
* `upgradeErr`: outcome of the (at most one) `post.upgrade_shell` call —
  `some msg` raises an exception with `str(e) = msg`;
* `classifyResult`: `exploiter.classify_log` — `none` raises (the code
  substitutes "unknown_failure"). -/
structure OrchEnv where
  scanResult : Except PyErr Unit
  llmResponse : Option String
  decode : String → Option (List (String × Json))
  shutdown : Nat → Bool
  sessionsAt : Nat → Except PyExc (List (String × SessInfo))
  executeResult : Except PyExc Bool
  elapsed : Nat → ℚ
  poll_timeout : ℚ
  consoleData : Nat → Option String
  upgradeErr : Option String
  classifyResult : Option String

/-- The polling loop (src/core/orchestrator.py lines 114–174).  `k` is the
tick index; `fuel` bounds the recursion — the theorems instantiate it large
enough that the wall-clock deadline is reached within `fuel` ticks, and
`none` means the fuel ran out first (impossible for a clock that eventually
passes the deadline).  Each tick, in source order: deadline test, shutdown
check, session re-snapshot (raising is fatal), diff against the dispatch
baseline, then either classify the selected new session (with the shell
upgrade attempt) or read the console for the terminal marker, sleep 5s and
recurse.  Returns the result with the trace of this tick onwards. -/
def pollLoop (env : OrchEnv) (consoleOk : Bool) (pre : List String) :
    Nat → Nat → Option (RunResult × List Ev)
  | _, 0 => none
  | k, fuel + 1 =>
    if env.elapsed k < env.poll_timeout then
      if env.shutdown (2 + k) then
        some (interruptedResult, [Ev.checkFlag true])
      else
        match env.sessionsAt (1 + k) with
        | .error e =>
            some (spectraFailureResult (.spectra (msfPollReadErr e)),
              [Ev.checkFlag false, Ev.sessionRead])
        | .ok cur =>
          match newSessions pre cur with
          | sid :: _ =>
            let info := sessLookup cur sid
            if info.type == some "shell" then
              match env.upgradeErr with
              | some err =>
                  some (⟨"success", "session_opened_upgrade_failed",
                    .obj [("session_id", .str sid),
                          ("upgrade_error", .str err)]⟩,
                    [Ev.checkFlag false, Ev.sessionRead, Ev.sessionRead,
                     Ev.upgradeCall])
              | none =>
                  some (⟨"success", "session_opened_and_upgraded",
                    .obj [("session_id", .str sid),
                          ("type", .str "upgraded_shell")]⟩,
                    [Ev.checkFlag false, Ev.sessionRead, Ev.sessionRead,
                     Ev.upgradeCall])
            else
              some (⟨"success", "session_opened",
                .obj [("session_id", .str sid),
                      ("type", (info.type.map Json.str).getD .null)]⟩,
                [Ev.checkFlag false, Ev.sessionRead, Ev.sessionRead])
          | [] =>
            if consoleOk then
              match env.consoleData k with
              | some dat =>
                if terminalMarker dat then
                  some (⟨"failure", "exploit_failed",
                    .obj [("classification",
                            .str (env.classifyResult.getD "unknown_failure")),
                          ("log", .str dat)]⟩,
                    [Ev.checkFlag false, Ev.sessionRead, Ev.consoleRead])
                else
                  (pollLoop env consoleOk pre (k + 1) fuel).map
                    (fun rt => (rt.1,
                      [Ev.checkFlag false, Ev.sessionRead, Ev.consoleRead,
                       Ev.sleepSecs 5] ++ rt.2))
              | none =>
                (pollLoop env consoleOk pre (k + 1) fuel).map
                  (fun rt => (rt.1,
                    [Ev.checkFlag false, Ev.sessionRead, Ev.consoleRead,
                     Ev.sleepSecs 5] ++ rt.2))
            else
              (pollLoop env consoleOk pre (k + 1) fuel).map
                (fun rt => (rt.1,
                  [Ev.checkFlag false, Ev.sessionRead, Ev.sleepSecs 5] ++ rt.2))
    else some (⟨"failure", "timeout_no_session", .obj []⟩, [])

/-- Method `SpectraOrchestrator.run` (src/core/orchestrator.py lines 54–184) as a
function of the oracle environment, paired with the run's externally
observable event trace.  The interactive-confirmation block (lines 86–89)
only logs, so the `dry_run`/`auto_confirm` flags do not appear; the
`TypeError`-compatibility retry around `exploiter.execute` (lines 106–109)
is signature probing, collapsed into one call.  Structured errors raised at
the three raise sites reach the single outer handler unimpeded and are
converted by `spectraFailureResult`. -/
def run (env : OrchEnv) (fuel : Nat) : Option (RunResult × List Ev) :=
  match env.scanResult with
  | .error e => some (spectraFailureResult e, [Ev.scanCall])
  | .ok _ =>
    if env.shutdown 0 then
      some (interruptedResult, [Ev.scanCall, Ev.checkFlag true])
    else
      let plan := get_strategy env.decode env.llmResponse false
      if !plan.truthy then
        some (⟨"failure", "no_plan", .obj []⟩,
          [Ev.scanCall, Ev.checkFlag false, Ev.llmCall])
      else
        if jfieldTruthy plan "manual_review" then
          some (⟨"partial", "manual_review_required",
            .obj [("rationale", ((jfield plan "rationale").getD .null))]⟩,
            [Ev.scanCall, Ev.checkFlag false, Ev.llmCall])
        else
          if env.shutdown 1 then
            some (interruptedResult,
              [Ev.scanCall, Ev.checkFlag false, Ev.llmCall, Ev.checkFlag true])
          else
            match env.sessionsAt 0 with
            | .error e =>
                some (spectraFailureResult (.spectra (msfReadErr e)),
                  [Ev.scanCall, Ev.checkFlag false, Ev.llmCall,
                   Ev.checkFlag false, Ev.sessionRead])
            | .ok preSess =>
              match env.executeResult with
              | .error e =>
                  some (spectraFailureResult (.spectra (exploitExecErr plan e)),
                    [Ev.scanCall, Ev.checkFlag false, Ev.llmCall,
                     Ev.checkFlag false, Ev.sessionRead, Ev.executeCall])
              | .ok consoleOk =>
                  (pollLoop env consoleOk (preSess.map Prod.fst) 0 fuel).map
                    (fun rt => (rt.1,
                      [Ev.scanCall, Ev.checkFlag false, Ev.llmCall,
                       Ev.checkFlag false, Ev.sessionRead, Ev.executeCall]
                        ++ rt.2))

/-- Poll tick k observes nothing: the deadline has not passed, the shutdown
flag reads false, the session re-snapshot succeeds with no new identifiers,
and the console (when there is a handle) yields no terminal marker —
whether the read raises (swallowed) or returns markerless text. -/
def quietTick (env : OrchEnv) (consoleOk : Bool) (pre : List String)
    (k : Nat) : Prop :=
  env.elapsed k < env.poll_timeout
  ∧ env.shutdown (2 + k) = false
  ∧ (∃ cur, env.sessionsAt (1 + k) = .ok cur ∧ newSessions pre cur = [])
  ∧ (consoleOk = true →
      ∀ dat, env.consoleData k = some dat → terminalMarker dat = false)

/-- The events of one quiet poll tick. -/
def quietTickEvs (consoleOk : Bool) : List Ev :=
  if consoleOk then
    [Ev.checkFlag false, Ev.sessionRead, Ev.consoleRead, Ev.sleepSecs 5]
  else [Ev.checkFlag false, Ev.sessionRead, Ev.sleepSecs 5]

/-- The events of the pre-polling phase of a run that reaches the loop. -/
def preEvs : List Ev :=
  [Ev.scanCall, Ev.checkFlag false, Ev.llmCall, Ev.checkFlag false,
   Ev.sessionRead, Ev.executeCall]

/-- The run reaches the polling loop with baseline `preSess` and console
truthiness `consoleOk`: recon succeeded, the flag read false at both
pre-loop checks, the plan is truthy and not a manual-review signal, the
baseline snapshot read succeeded, and dispatch returned a console handle. -/
def reachesPolling (env : OrchEnv) (preSess : List (String × SessInfo))
    (consoleOk : Bool) : Prop :=
  env.scanResult = .ok ()
  ∧ env.shutdown 0 = false
  ∧ (get_strategy env.decode env.llmResponse false).truthy = true
  ∧ jfieldTruthy (get_strategy env.decode env.llmResponse false)
      "manual_review" = false
  ∧ env.shutdown 1 = false
  ∧ env.sessionsAt 0 = .ok preSess
  ∧ env.executeResult = .ok consoleOk

theorem pollLoop_quiet_step {env : OrchEnv} {co : Bool} {pre : List String}
    {k fuel : Nat} (hq : quietTick env co pre k) :
    pollLoop env co pre k (fuel + 1)
      = (pollLoop env co pre (k + 1) fuel).map
          (fun rt => (rt.1, quietTickEvs co ++ rt.2)) := by
  obtain ⟨hd, hs, ⟨cur, hcur, hnew⟩, hcons⟩ := hq
  simp only [pollLoop, hd, if_true, hs, Bool.false_eq_true, if_false, hcur,
    hnew]
  cases co with
  | false => simp [quietTickEvs]
  | true =>
    rcases hcd : env.consoleData k with _ | dat
    · simp [quietTickEvs]
    · have hm := hcons rfl dat hcd
      simp [quietTickEvs, hm]

theorem pollLoop_quiet_until {env : OrchEnv} {co : Bool} {pre : List String} :
    ∀ (n k fuel : Nat), (∀ j, j < n → quietTick env co pre (k + j)) →
    pollLoop env co pre k (fuel + n)
      = (pollLoop env co pre (k + n) fuel).map
          (fun rt => (rt.1, (List.replicate n (quietTickEvs co)).flatten ++ rt.2)) := by
  intro n
  induction n with
  | zero =>
    intro k fuel _
    simp only [Nat.add_zero, List.replicate, List.flatten, List.nil_append]
    cases pollLoop env co pre k fuel with
    | none => rfl
    | some rt => rfl
  | succ n ih =>
    intro k fuel hq
    have h0 : quietTick env co pre k := by
      have := hq 0 (Nat.succ_pos n)
      simpa using this
    have hrest : ∀ j, j < n → quietTick env co pre (k + 1 + j) := by
      intro j hj
      have := hq (j + 1) (Nat.succ_lt_succ hj)
      simpa [Nat.add_assoc, Nat.add_comm 1 j] using this
    rw [show fuel + (n + 1) = (fuel + n) + 1 from rfl,
      pollLoop_quiet_step h0, ih (k + 1) fuel hrest]
    rw [show k + (n + 1) = k + 1 + n by omega]
    cases pollLoop env co pre (k + 1 + n) fuel with
    | none => rfl
    | some rt =>
      simp [List.replicate_succ, List.append_assoc]

theorem run_reaches_polling {env : OrchEnv}
    {preSess : List (String × SessInfo)} {co : Bool} {fuel : Nat}
    (h : reachesPolling env preSess co) :
    run env fuel
      = (pollLoop env co (preSess.map Prod.fst) 0 fuel).map
          (fun rt => (rt.1, preEvs ++ rt.2)) := by
  obtain ⟨h1, h2, h3, h4, h5, h6, h7⟩ := h
  simp only [run, h1, h2, h3, h4, h5, h6, h7, Bool.false_eq_true, if_false,
    Bool.not_true, preEvs]

theorem pollLoop_sound :
    ∀ (fuel : Nat) (k : Nat) {env : OrchEnv} {co : Bool} {pre : List String}
      {r : RunResult} {tr : List Ev},
      pollLoop env co pre k fuel = some (r, tr) →
      (r.status = "success" ∨ r.status = "failure" ∨ r.status = "interrupted")
      ∧ r.reason ≠ "no_plan"
      ∧ (Ev.checkFlag true ∈ tr →
          r = interruptedResult
          ∧ ∃ p2, tr = p2 ++ [Ev.checkFlag true] ∧ Ev.checkFlag true ∉ p2) := by
  intro fuel
  induction fuel with
  | zero =>
    intro k env co pre r tr h
    simp [pollLoop] at h
  | succ fuel ih =>
    intro k env co pre r tr h
    simp only [pollLoop] at h
    by_cases hd : env.elapsed k < env.poll_timeout
    case neg =>
      rw [if_neg hd] at h
      simp only [Option.some.injEq, Prod.mk.injEq] at h
      obtain ⟨rfl, rfl⟩ := h
      refine ⟨by simp, by simp, ?_⟩
      intro hmem
      simp at hmem
    case pos =>
      rw [if_pos hd] at h
      by_cases hs : env.shutdown (2 + k) = true
      · rw [if_pos hs] at h
        simp only [Option.some.injEq, Prod.mk.injEq] at h
        obtain ⟨rfl, rfl⟩ := h
        refine ⟨by simp [interruptedResult], by simp [interruptedResult], ?_⟩
        intro _
        exact ⟨rfl, [], rfl, by simp⟩
      · rw [if_neg hs] at h
        rcases hcur : env.sessionsAt (1 + k) with e | cur <;> simp only [hcur] at h
        · simp only [Option.some.injEq, Prod.mk.injEq] at h
          obtain ⟨rfl, rfl⟩ := h
          refine ⟨by simp [spectraFailureResult],
            by simp [spectraFailureResult, msfPollReadErr, FailureReason.value], ?_⟩
          intro hmem
          simp at hmem
        · rcases hnew : newSessions pre cur with _ | ⟨sid, rest⟩ <;> simp only [hnew] at h
          · by_cases hco : co = true
            · subst hco
              rw [if_pos rfl] at h
              rcases hcd : env.consoleData k with _ | dat <;> simp only [hcd] at h
              · rw [Option.map_eq_some'] at h
                obtain ⟨⟨r0, tr0⟩, hp, hf⟩ := h
                simp only [Prod.mk.injEq] at hf
                obtain ⟨rfl, rfl⟩ := hf
                obtain ⟨hst, hre, hca⟩ := ih (k + 1) hp
                refine ⟨hst, hre, ?_⟩
                intro hmem
                simp only [List.cons_append, List.nil_append, List.mem_cons] at hmem
                rcases hmem with h1 | h1 | h1 | h1 | h1
                · cases h1
                · cases h1
                · cases h1
                · cases h1
                · obtain ⟨hr, p2, rfl, hnot⟩ := hca h1
                  refine ⟨hr, [Ev.checkFlag false, Ev.sessionRead,
                    Ev.consoleRead, Ev.sleepSecs 5] ++ p2, by simp, ?_⟩
                  simp [hnot]
              · by_cases hmark : terminalMarker dat = true
                · rw [if_pos hmark] at h
                  simp only [Option.some.injEq, Prod.mk.injEq] at h
                  obtain ⟨rfl, rfl⟩ := h
                  refine ⟨by simp, by simp, ?_⟩
                  intro hmem
                  simp at hmem
                · rw [if_neg hmark] at h
                  rw [Option.map_eq_some'] at h
                  obtain ⟨⟨r0, tr0⟩, hp, hf⟩ := h
                  simp only [Prod.mk.injEq] at hf
                  obtain ⟨rfl, rfl⟩ := hf
                  obtain ⟨hst, hre, hca⟩ := ih (k + 1) hp
                  refine ⟨hst, hre, ?_⟩
                  intro hmem
                  simp only [List.cons_append, List.nil_append, List.mem_cons] at hmem
                  rcases hmem with h1 | h1 | h1 | h1 | h1
                  · cases h1
                  · cases h1
                  · cases h1
                  · cases h1
                  · obtain ⟨hr, p2, rfl, hnot⟩ := hca h1
                    refine ⟨hr, [Ev.checkFlag false, Ev.sessionRead,
                      Ev.consoleRead, Ev.sleepSecs 5] ++ p2, by simp, ?_⟩
                    simp [hnot]
            · rw [if_neg hco] at h
              rw [Option.map_eq_some'] at h
              obtain ⟨⟨r0, tr0⟩, hp, hf⟩ := h
              simp only [Prod.mk.injEq] at hf
              obtain ⟨rfl, rfl⟩ := hf
              obtain ⟨hst, hre, hca⟩ := ih (k + 1) hp
              refine ⟨hst, hre, ?_⟩
              intro hmem
              simp only [List.cons_append, List.nil_append, List.mem_cons] at hmem
              rcases hmem with h1 | h1 | h1 | h1
              · cases h1
              · cases h1
              · cases h1
              · obtain ⟨hr, p2, rfl, hnot⟩ := hca h1
                refine ⟨hr, [Ev.checkFlag false, Ev.sessionRead,
                  Ev.sleepSecs 5] ++ p2, by simp, ?_⟩
                simp [hnot]
          · by_cases htyp : (sessLookup cur sid).type == some "shell"
            · rw [if_pos htyp] at h
              rcases hup : env.upgradeErr with _ | err <;> simp only [hup] at h <;>
                simp only [Option.some.injEq, Prod.mk.injEq] at h <;>
                obtain ⟨rfl, rfl⟩ := h
              · refine ⟨by simp, by simp, ?_⟩
                intro hmem
                simp at hmem
              · refine ⟨by simp, by simp, ?_⟩
                intro hmem
                simp at hmem
            · rw [if_neg htyp] at h
              simp only [Option.some.injEq, Prod.mk.injEq] at h
              obtain ⟨rfl, rfl⟩ := h
              refine ⟨by simp, by simp, ?_⟩
              intro hmem
              simp at hmem

theorem pollLoop_total :
    ∀ (fuel k : Nat) (env : OrchEnv) (co : Bool) (pre : List String),
      (∃ j, j < fuel ∧ ¬ env.elapsed (k + j) < env.poll_timeout) →
      (pollLoop env co pre k fuel).isSome = true := by
  intro fuel
  induction fuel with
  | zero =>
    intro k env co pre h
    obtain ⟨j, hj, _⟩ := h
    omega
  | succ fuel ih =>
    intro k env co pre h
    obtain ⟨j, hj, hdl⟩ := h
    by_cases hd : env.elapsed k < env.poll_timeout
    case neg => simp [pollLoop, hd]
    case pos =>
      have hj0 : j ≠ 0 := by
        rintro rfl
        rw [Nat.add_zero] at hdl
        exact hdl hd
      have hrec : (pollLoop env co pre (k + 1) fuel).isSome = true := by
        apply ih
        refine ⟨j - 1, by omega, ?_⟩
        rw [show k + 1 + (j - 1) = k + j by omega]
        exact hdl
      simp only [pollLoop, hd, if_true]
      by_cases hs : env.shutdown (2 + k) = true
      · simp [hs]
      · simp only [hs, Bool.false_eq_true, if_false]
        rcases hcur : env.sessionsAt (1 + k) with e | cur
        · simp [hcur]
        · rcases hnew : newSessions pre cur with _ | ⟨sid, rest⟩
          · by_cases hco : co = true
            · subst hco
              rcases hcd : env.consoleData k with _ | dat
              · simpa [hcur, hnew, hcd] using hrec
              · by_cases hmark : terminalMarker dat = true
                · simp [hcur, hnew, hcd, hmark]
                · simpa [hcur, hnew, hcd, hmark] using hrec
            · simpa [hcur, hnew, hco] using hrec
          · by_cases htyp : ((sessLookup cur sid).type == some "shell") = true
            · rcases env.upgradeErr with _ | err <;> simp [hcur, hnew, htyp]
            · simp [hcur, hnew, htyp]

theorem validate_decoded_truthy (data : List (String × Json)) (req : Bool) :
    (validate_decoded data req).truthy = true := by
  unfold validate_decoded
  by_cases hmr : ((jgetD data "manual_review" .null).truthy = true)
  · rw [if_pos hmr]
    rfl
  · rw [if_neg hmr]
    rcases hv : validateStrategySchema data with _ | strat <;> simp only [hv]
    · rfl
    · by_cases hvec : strat.vector = "system" ∨ strat.vector = "web"
      · rw [if_pos hvec]
        cases req with
        | false => rfl
        | true => simp [setManualReviewTrue, StrategySchema.toDict, Json.truthy]
      · rw [if_neg hvec]
        rfl

theorem get_strategy_truthy (decode : String → Option (List (String × Json)))
    (l : Option String) (req : Bool) :
    (get_strategy decode l req).truthy = true := by
  unfold get_strategy
  rcases l with _ | raw
  · rfl
  · rcases hx : extract_first_json raw with _ | jtext <;> simp only [hx]
    · rfl
    · rcases hdec : decode jtext with _ | data <;> simp only [hdec]
      · rfl
      · exact validate_decoded_truthy data req

theorem FailureReason.value_ne_no_plan (fr : FailureReason) :
    fr.value ≠ "no_plan" := by
  cases fr <;> decide

theorem run_sound {env : OrchEnv} {fuel : Nat} {r : RunResult} {tr : List Ev}
    (h : run env fuel = some (r, tr)) :
    (r.status = "success" ∨ r.status = "failure" ∨ r.status = "partial"
      ∨ r.status = "interrupted" ∨ r.status = "unknown")
    ∧ r.reason ≠ "no_plan"
    ∧ (Ev.checkFlag true ∈ tr →
        r = interruptedResult
        ∧ ∃ p2, tr = p2 ++ [Ev.checkFlag true] ∧ Ev.checkFlag true ∉ p2) := by
  unfold run at h
  rcases hscan : env.scanResult with e | u <;> simp only [hscan] at h
  · simp only [Option.some.injEq, Prod.mk.injEq] at h
    obtain ⟨rfl, rfl⟩ := h
    rcases e with se | pe
    · refine ⟨Or.inr (Or.inl rfl), FailureReason.value_ne_no_plan se.reason, ?_⟩
      intro hmem
      simp at hmem
    · refine ⟨Or.inr (Or.inl rfl), ?_, ?_⟩
      · show ("UNDEFINED_INTERNAL_ERROR" : String) ≠ "no_plan"
        decide
      · intro hmem
        simp at hmem
  · by_cases h0 : env.shutdown 0 = true
    · simp only [h0, if_true, Option.some.injEq, Prod.mk.injEq] at h
      obtain ⟨rfl, rfl⟩ := h
      refine ⟨Or.inr (Or.inr (Or.inr (Or.inl rfl))), by decide, ?_⟩
      intro _
      exact ⟨rfl, [Ev.scanCall], rfl, by simp⟩
    · simp only [h0, Bool.false_eq_true, if_false, get_strategy_truthy,
        Bool.not_true] at h
      by_cases hmr : jfieldTruthy
          (get_strategy env.decode env.llmResponse false) "manual_review" = true
      · simp only [hmr, if_true, Option.some.injEq, Prod.mk.injEq] at h
        obtain ⟨rfl, rfl⟩ := h
        refine ⟨Or.inr (Or.inr (Or.inl rfl)), ?_, ?_⟩
        · show ("manual_review_required" : String) ≠ "no_plan"
          decide
        · intro hmem
          simp at hmem
      · simp only [hmr, Bool.false_eq_true, if_false] at h
        by_cases h1 : env.shutdown 1 = true
        · simp only [h1, if_true, Option.some.injEq, Prod.mk.injEq] at h
          obtain ⟨rfl, rfl⟩ := h
          refine ⟨Or.inr (Or.inr (Or.inr (Or.inl rfl))), by decide, ?_⟩
          intro _
          refine ⟨rfl, [Ev.scanCall, Ev.checkFlag false, Ev.llmCall], rfl, ?_⟩
          simp
        · simp only [h1, Bool.false_eq_true, if_false] at h
          rcases hsess : env.sessionsAt 0 with e | preSess <;>
            simp only [hsess] at h
          · simp only [Option.some.injEq, Prod.mk.injEq] at h
            obtain ⟨rfl, rfl⟩ := h
            refine ⟨Or.inr (Or.inl rfl),
              FailureReason.value_ne_no_plan FailureReason.RPC_FAIL, ?_⟩
            intro hmem
            simp at hmem
          · rcases hexec : env.executeResult with e | co <;>
              simp only [hexec] at h
            · simp only [Option.some.injEq, Prod.mk.injEq] at h
              obtain ⟨rfl, rfl⟩ := h
              refine ⟨Or.inr (Or.inl rfl),
                FailureReason.value_ne_no_plan FailureReason.INCOMPATIBLE, ?_⟩
              intro hmem
              simp at hmem
            · rw [Option.map_eq_some'] at h
              obtain ⟨⟨r0, tr0⟩, hp, hf⟩ := h
              simp only [Prod.mk.injEq] at hf
              obtain ⟨rfl, rfl⟩ := hf
              obtain ⟨hst, hre, hca⟩ := pollLoop_sound fuel 0 hp
              refine ⟨?_, hre, ?_⟩
              · rcases hst with h' | h' | h'
                · exact Or.inl h'
                · exact Or.inr (Or.inl h')
                · exact Or.inr (Or.inr (Or.inr (Or.inl h')))
              · intro hmem
                simp only [List.cons_append, List.nil_append,
                  List.mem_cons] at hmem
                rcases hmem with h' | h' | h' | h' | h' | h' | h'
                · cases h'
                · cases h'
                · cases h'
                · cases h'
                · cases h'
                · cases h'
                · obtain ⟨hr, p2, rfl, hnot⟩ := hca h'
                  refine ⟨hr, [Ev.scanCall, Ev.checkFlag false, Ev.llmCall,
                    Ev.checkFlag false, Ev.sessionRead, Ev.executeCall] ++ p2,
                    by simp, ?_⟩
                  simp [hnot]

theorem run_total (env : OrchEnv) (fuel n : Nat) (hn : n < fuel)
    (hdl : ¬ env.elapsed n < env.poll_timeout) :
    (run env fuel).isSome = true := by
  unfold run
  rcases hscan : env.scanResult with e | u
  · simp [hscan]
  · by_cases h0 : env.shutdown 0 = true
    · simp [hscan, h0]
    · simp only [hscan, h0, Bool.false_eq_true, if_false, get_strategy_truthy,
        Bool.not_true]
      by_cases hmr : jfieldTruthy
          (get_strategy env.decode env.llmResponse false) "manual_review" = true
      · simp [hmr]
      · simp only [hmr, Bool.false_eq_true, if_false]
        by_cases h1 : env.shutdown 1 = true
        · simp [h1]
        · simp only [h1, Bool.false_eq_true, if_false]
          rcases hsess : env.sessionsAt 0 with e | preSess
          · simp [hsess]
          · rcases hexec : env.executeResult with e | co
            · simp [hsess, hexec]
            · simp only [hsess, hexec]
              have hp := pollLoop_total fuel 0 env co (preSess.map Prod.fst)
                ⟨n, hn, by simpa using hdl⟩
              simpa using hp

theorem pollLoop_tick_new {env : OrchEnv} (co : Bool) {pre : List String}
    {k : Nat} {cur : List (String × SessInfo)} {sid : String}
    {rest : List String}
    (hdl : env.elapsed k < env.poll_timeout)
    (hsd : env.shutdown (2 + k) = false)
    (hcur : env.sessionsAt (1 + k) = .ok cur)
    (hnew : newSessions pre cur = sid :: rest) (fuel : Nat) :
    pollLoop env co pre k (fuel + 1)
      = if ((sessLookup cur sid).type == some "shell") = true then
          match env.upgradeErr with
          | some err =>
              some (⟨"success", "session_opened_upgrade_failed",
                .obj [("session_id", .str sid), ("upgrade_error", .str err)]⟩,
                [Ev.checkFlag false, Ev.sessionRead, Ev.sessionRead,
                 Ev.upgradeCall])
          | none =>
              some (⟨"success", "session_opened_and_upgraded",
                .obj [("session_id", .str sid), ("type", .str "upgraded_shell")]⟩,
                [Ev.checkFlag false, Ev.sessionRead, Ev.sessionRead,
                 Ev.upgradeCall])
        else
          some (⟨"success", "session_opened",
            .obj [("session_id", .str sid),
                  ("type", ((sessLookup cur sid).type.map Json.str).getD .null)]⟩,
            [Ev.checkFlag false, Ev.sessionRead, Ev.sessionRead]) := by
  simp only [pollLoop, hdl, if_true, hsd, Bool.false_eq_true, if_false, hcur,
    hnew]

theorem pollLoop_tick_readfail {env : OrchEnv} (co : Bool) (pre : List String)
    {k : Nat} {e : PyExc}
    (hdl : env.elapsed k < env.poll_timeout)
    (hsd : env.shutdown (2 + k) = false)
    (hcur : env.sessionsAt (1 + k) = .error e) (fuel : Nat) :
    pollLoop env co pre k (fuel + 1)
      = some (spectraFailureResult (.spectra (msfPollReadErr e)),
          [Ev.checkFlag false, Ev.sessionRead]) := by
  simp only [pollLoop, hdl, if_true, hsd, Bool.false_eq_true, if_false, hcur]

/-- C7: for every run in which no new session identifier ever appears
relative to the dispatch-time snapshot, the execution-log output never
contains a terminal failure marker and the cancellation flag is never
observed set, the polling loop — bounded by the wall-clock deadline with the
default `poll_timeout` of 60 seconds and the fixed 5-second `time.sleep`
between ticks — terminates at the first tick whose deadline check fails, and
the run returns {status: failure, reason: timeout_no_session, details: {}};
the trace records exactly one 5-second sleep per completed tick. -/
theorem run_timeout_no_session (env : OrchEnv)
    (preSess : List (String × SessInfo)) (co : Bool) (n : Nat)
    (hreach : reachesPolling env preSess co)
    (hq : ∀ j, j < n → quietTick env co (preSess.map Prod.fst) j)
    (htm : env.poll_timeout = default_poll_timeout)
    (hdl : ¬ env.elapsed n < default_poll_timeout) :
    run env (1 + n) = some (⟨"failure", "timeout_no_session", .obj []⟩,
      preEvs ++ ((List.replicate n (quietTickEvs co)).flatten ++ []))
    ∧ (quietTickEvs co).count (Ev.sleepSecs pollTickSleep) = 1 := by
  constructor
  · rw [run_reaches_polling hreach]
    have hq0 : ∀ j, j < n → quietTick env co (preSess.map Prod.fst) (0 + j) := by
      intro j hj
      simpa using hq j hj
    rw [pollLoop_quiet_until n 0 1 hq0]
    have hterm : pollLoop env co (preSess.map Prod.fst) (0 + n) 1
        = some (⟨"failure", "timeout_no_session", .obj []⟩, []) := by
      simp only [pollLoop]
      rw [if_neg (by rw [Nat.zero_add, htm]; exact hdl)]
    rw [hterm]
    rfl
  · cases co <;> decide

/-- C6: at a poll tick whose snapshot minus the dispatch-time baseline is
non-empty, with `sid` the selected member: a non-"shell" session type
returns {status: success, reason: session_opened}; a "shell" type whose
upgrade succeeds returns {status: success, reason:
session_opened_and_upgraded} with the session id and type "upgraded_shell"
in details; and a "shell" type whose upgrade raises still returns
{status: success, reason: session_opened_upgrade_failed} with the upgrade
error recorded in details — a failed upgrade never demotes an opened
session to failure. -/
theorem run_session_opened (env : OrchEnv)
    (preSess : List (String × SessInfo)) (co : Bool) (n : Nat)
    (hreach : reachesPolling env preSess co)
    (hq : ∀ j, j < n → quietTick env co (preSess.map Prod.fst) j)
    (hdl : env.elapsed n < env.poll_timeout)
    (hsd : env.shutdown (2 + n) = false)
    (cur : List (String × SessInfo)) (hcur : env.sessionsAt (1 + n) = .ok cur)
    (sid : String) (rest : List String)
    (hnew : newSessions (preSess.map Prod.fst) cur = sid :: rest) :
    ((sessLookup cur sid).type ≠ some "shell" →
      run env (1 + n) = some (⟨"success", "session_opened",
        .obj [("session_id", .str sid),
              ("type", ((sessLookup cur sid).type.map Json.str).getD .null)]⟩,
        preEvs ++ ((List.replicate n (quietTickEvs co)).flatten
          ++ [Ev.checkFlag false, Ev.sessionRead, Ev.sessionRead])))
    ∧ ((sessLookup cur sid).type = some "shell" → env.upgradeErr = none →
      run env (1 + n) = some (⟨"success", "session_opened_and_upgraded",
        .obj [("session_id", .str sid), ("type", .str "upgraded_shell")]⟩,
        preEvs ++ ((List.replicate n (quietTickEvs co)).flatten
          ++ [Ev.checkFlag false, Ev.sessionRead, Ev.sessionRead,
              Ev.upgradeCall])))
    ∧ ((sessLookup cur sid).type = some "shell" →
      ∀ err, env.upgradeErr = some err →
      run env (1 + n) = some (⟨"success", "session_opened_upgrade_failed",
        .obj [("session_id", .str sid), ("upgrade_error", .str err)]⟩,
        preEvs ++ ((List.replicate n (quietTickEvs co)).flatten
          ++ [Ev.checkFlag false, Ev.sessionRead, Ev.sessionRead,
              Ev.upgradeCall]))) := by
  have hq0 : ∀ j, j < n → quietTick env co (preSess.map Prod.fst) (0 + j) := by
    intro j hj
    simpa using hq j hj
  have hrun : run env (1 + n)
      = (pollLoop env co (preSess.map Prod.fst) n 1).map
          (fun rt => (rt.1, preEvs
            ++ ((List.replicate n (quietTickEvs co)).flatten ++ rt.2))) := by
    rw [run_reaches_polling hreach, pollLoop_quiet_until n 0 1 hq0,
      Nat.zero_add]
    cases pollLoop env co (preSess.map Prod.fst) n 1 with
    | none => rfl
    | some rt => rfl
  have htick := pollLoop_tick_new co hdl hsd hcur hnew 0
  rw [Nat.zero_add] at htick
  refine ⟨?_, ?_, ?_⟩
  · intro htype
    have hbeq : ((sessLookup cur sid).type == some "shell") = false := by
      simpa [beq_eq_false_iff_ne] using htype
    rw [hrun, htick, if_neg (by simp [hbeq])]
    rfl
  · intro htype hup
    have hbeq : ((sessLookup cur sid).type == some "shell") = true := by
      simp [htype]
    rw [hrun, htick, if_pos hbeq, hup]
    rfl
  · intro htype err hup
    have hbeq : ((sessLookup cur sid).type == some "shell") = true := by
      simp [htype]
    rw [hrun, htick, if_pos hbeq, hup]
    rfl

/-- Raw advisor text used by witness environments: a minimal JSON object so
that extraction succeeds; the decode oracle then supplies the mapping. -/
def rawPlanText : String := "\x7b\x7d"

def c7Env : OrchEnv :=
  ⟨.ok (), some rawPlanText, fun _ => some c3Data, fun _ => false,
   fun _ => .ok [], .ok false, fun k => (k : ℚ) * 30, 60, fun _ => none,
   none, none⟩

/-- Witness for C7: two quiet ticks (clock at 0s and 30s), then the deadline
check fails at 60s. -/
theorem run_timeout_no_session_witness :
    reachesPolling c7Env [] false
    ∧ ¬ c7Env.elapsed 2 < default_poll_timeout
    ∧ run c7Env 3 = some (⟨"failure", "timeout_no_session", .obj []⟩,
        preEvs ++ ((List.replicate 2 (quietTickEvs false)).flatten ++ [])) := by
  have hreach : reachesPolling c7Env [] false :=
    ⟨rfl, rfl, rfl, rfl, rfl, rfl, rfl⟩
  have hq : ∀ j, j < 2 → quietTick c7Env false ([] : List String) j := by
    intro j hj
    interval_cases j
    · exact ⟨by norm_num [c7Env], rfl, ⟨[], rfl, rfl⟩, fun hco => by cases hco⟩
    · exact ⟨by norm_num [c7Env], rfl, ⟨[], rfl, rfl⟩, fun hco => by cases hco⟩
  refine ⟨hreach, by norm_num [c7Env, default_poll_timeout], ?_⟩
  have h := (run_timeout_no_session c7Env [] false 2 hreach hq rfl
    (by norm_num [c7Env, default_poll_timeout])).1
  simpa using h

def c6Env : OrchEnv :=
  ⟨.ok (), some rawPlanText, fun _ => some c3Data, fun _ => false,
   fun i => if i = 0 then .ok [] else .ok [("s1", ⟨some "shell"⟩)],
   .ok false, fun _ => 0, 60, fun _ => none, none, none⟩

/-- Witness for C6, scenario C: empty baseline, poll tick 1 observes session
"s1" of type "shell", the upgrade succeeds. -/
theorem run_session_opened_witness :
    c6Env.upgradeErr = none
    ∧ run c6Env 1 = some (⟨"success", "session_opened_and_upgraded",
        .obj [("session_id", .str "s1"), ("type", .str "upgraded_shell")]⟩,
        preEvs ++ [Ev.checkFlag false, Ev.sessionRead, Ev.sessionRead,
          Ev.upgradeCall]) := by
  have hreach : reachesPolling c6Env [] false :=
    ⟨rfl, rfl, rfl, rfl, rfl, rfl, rfl⟩
  have h := (run_session_opened c6Env [] false 0 hreach
      (fun j hj => absurd hj (Nat.not_lt_zero j)) (by norm_num [c6Env]) rfl
      [("s1", ⟨some "shell"⟩)] rfl "s1" [] rfl).2.1 rfl rfl
  refine ⟨rfl, ?_⟩
  simpa using h

/-- C9: for every run, a failure to read the session registry — either when
taking the pre-dispatch snapshot or when re-snapshotting during any poll
tick — raises a structured MSFRPCException with reason MSF_RPC_SYNC_ISSUE
without any retry: the failing read is the final event of the trace, the
error propagates to the single outer handler, and the run returns a failure
result carrying the MSF_RPC_SYNC_ISSUE reason code; the read failure is
never treated as retryable or as evidence of non-success. -/
theorem run_rpc_read_fatal (env : OrchEnv) :
    (∀ e : PyExc,
      env.scanResult = .ok () → env.shutdown 0 = false →
      jfieldTruthy (get_strategy env.decode env.llmResponse false)
          "manual_review" = false →
      env.shutdown 1 = false → env.sessionsAt 0 = .error e →
      ∀ fuel, run env fuel
        = some (⟨"failure", FailureReason.RPC_FAIL.value,
            (msfReadErr e).toDict⟩,
            [Ev.scanCall, Ev.checkFlag false, Ev.llmCall, Ev.checkFlag false,
             Ev.sessionRead]))
    ∧ (∀ (preSess : List (String × SessInfo)) (co : Bool) (n : Nat)
        (e : PyExc),
      reachesPolling env preSess co →
      (∀ j, j < n → quietTick env co (preSess.map Prod.fst) j) →
      env.elapsed n < env.poll_timeout →
      env.shutdown (2 + n) = false →
      env.sessionsAt (1 + n) = .error e →
      run env (1 + n)
        = some (⟨"failure", FailureReason.RPC_FAIL.value,
            (msfPollReadErr e).toDict⟩,
            preEvs ++ ((List.replicate n (quietTickEvs co)).flatten
              ++ [Ev.checkFlag false, Ev.sessionRead]))) := by
  constructor
  · intro e h1 h2 hmr h4 hsess fuel
    unfold run
    simp only [h1, h2, Bool.false_eq_true, if_false, get_strategy_truthy,
      Bool.not_true, hmr, h4, hsess]
    rfl
  · intro preSess co n e hreach hq hdl hsd hsess
    have hq0 : ∀ j, j < n → quietTick env co (preSess.map Prod.fst) (0 + j) := by
      intro j hj
      simpa using hq j hj
    rw [run_reaches_polling hreach, pollLoop_quiet_until n 0 1 hq0,
      Nat.zero_add]
    have htick := pollLoop_tick_readfail co (preSess.map Prod.fst) hdl hsd
      hsess 0
    rw [Nat.zero_add] at htick
    rw [htick]
    rfl

def c9EnvA : OrchEnv :=
  ⟨.ok (), some rawPlanText, fun _ => some c3Data, fun _ => false,
   fun _ => .error ⟨"RuntimeError", "conn reset"⟩, .ok false, fun _ => 0, 60,
   fun _ => none, none, none⟩

def c9EnvB : OrchEnv :=
  ⟨.ok (), some rawPlanText, fun _ => some c3Data, fun _ => false,
   fun i => if i = 0 then .ok [] else .error ⟨"RuntimeError", "conn reset"⟩,
   .ok false, fun _ => 0, 60, fun _ => none, none, none⟩

/-- Witness for C9 at both read sites. -/
theorem run_rpc_read_fatal_witness :
    run c9EnvA 1 = some (⟨"failure", FailureReason.RPC_FAIL.value,
        (msfReadErr ⟨"RuntimeError", "conn reset"⟩).toDict⟩,
      [Ev.scanCall, Ev.checkFlag false, Ev.llmCall, Ev.checkFlag false,
       Ev.sessionRead])
    ∧ run c9EnvB 1 = some (⟨"failure", FailureReason.RPC_FAIL.value,
        (msfPollReadErr ⟨"RuntimeError", "conn reset"⟩).toDict⟩,
      preEvs ++ [Ev.checkFlag false, Ev.sessionRead]) := by
  constructor
  · exact (run_rpc_read_fatal c9EnvA).1 ⟨"RuntimeError", "conn reset"⟩ rfl rfl
      rfl rfl rfl 1
  · have h := (run_rpc_read_fatal c9EnvB).2 [] false 0
      ⟨"RuntimeError", "conn reset"⟩ ⟨rfl, rfl, rfl, rfl, rfl, rfl, rfl⟩
      (fun j hj => absurd hj (Nat.not_lt_zero j)) (by norm_num [c9EnvB]) rfl
      rfl
    simpa using h

/-- C1: for every environment — hence every behaviour of the collaborators,
including raising ones — and any fuel taking the loop past the wall-clock
deadline, `run` returns exactly one structured result whose status lies in
{success, failure, partial, interrupted, unknown}; a structured
`SpectraException` raised inside the state machine is converted at the
single outer boundary to a FAILURE result carrying that error's reason code
and its structured `to_dict` details, and any other unexpected error is
converted to a FAILURE with the UNDEFINED reason — no exception escapes
`run`. -/
theorem run_one_structured_result (env : OrchEnv) (fuel n : Nat)
    (hn : n < fuel) (hdl : ¬ env.elapsed n < env.poll_timeout) :
    (∃ r tr, run env fuel = some (r, tr)
      ∧ (r.status = "success" ∨ r.status = "failure" ∨ r.status = "partial"
         ∨ r.status = "interrupted" ∨ r.status = "unknown"))
    ∧ (∀ se : SpectraExc, spectraFailureResult (.spectra se)
        = ⟨"failure", se.reason.value, se.toDict⟩)
    ∧ (∀ pe : PyExc, spectraFailureResult (.other pe)
        = ⟨"failure", FailureReason.UNDEFINED.value,
            .obj [("error", .str pe.msg)]⟩) := by
  refine ⟨?_, fun se => rfl, fun pe => rfl⟩
  have hs := run_total env fuel n hn hdl
  rcases hr : run env fuel with _ | rt
  · rw [hr] at hs
    simp at hs
  · obtain ⟨r, tr⟩ := rt
    exact ⟨r, tr, rfl, (run_sound hr).1⟩

def c1Env : OrchEnv :=
  ⟨.ok (), none, fun _ => none, fun _ => false, fun _ => .ok [], .ok false,
   fun _ => 100, 60, fun _ => none, none, none⟩

/-- Witness for C1. -/
theorem run_one_structured_result_witness :
    (0 : Nat) < 1 ∧ ¬ c1Env.elapsed 0 < c1Env.poll_timeout
    ∧ (∃ r tr, run c1Env 1 = some (r, tr)
        ∧ (r.status = "success" ∨ r.status = "failure" ∨ r.status = "partial"
           ∨ r.status = "interrupted" ∨ r.status = "unknown")) := by
  refine ⟨by norm_num, by norm_num [c1Env], ?_⟩
  exact (run_one_structured_result c1Env 1 0 (by norm_num)
    (by norm_num [c1Env])).1

/-- C8: whenever a cancellation check observes the flag set, the run returns
{status: interrupted, reason: shutdown_requested, details: {}} and that
check is the final event of the run's trace — no session-registry read,
execution, upgrade or console read occurs after it.  The checks sit at the
state boundaries (after recon, before dispatch) and at the start of every
poll tick, exactly where the source places `_is_shutdown()`. -/
theorem run_cancellation_stops (env : OrchEnv) (fuel : Nat) (r : RunResult)
    (tr : List Ev) (h : run env fuel = some (r, tr))
    (hmem : Ev.checkFlag true ∈ tr) :
    r = interruptedResult
    ∧ ∃ p2, tr = p2 ++ [Ev.checkFlag true] ∧ Ev.checkFlag true ∉ p2 :=
  (run_sound h).2.2 hmem

def c8Env : OrchEnv :=
  ⟨.ok (), some rawPlanText, fun _ => some c3Data,
   fun n => decide (2 ≤ n), fun _ => .ok [], .ok false, fun _ => 0, 60,
   fun _ => none, none, none⟩

/-- Witness for C8, scenario E: the flag becomes set between dispatch and
the first poll tick (it reads false at checks 0 and 1, true from check 2
on); the run stops at tick 0's check with no further external calls. -/
theorem run_cancellation_stops_witness :
    run c8Env 1 = some (interruptedResult, preEvs ++ [Ev.checkFlag true])
    ∧ Ev.checkFlag true ∈ preEvs ++ [Ev.checkFlag true]
    ∧ interruptedResult = interruptedResult
    ∧ ∃ p2, preEvs ++ [Ev.checkFlag true] = p2 ++ [Ev.checkFlag true]
        ∧ Ev.checkFlag true ∉ p2 := by
  have hrun : run c8Env 1
      = some (interruptedResult, preEvs ++ [Ev.checkFlag true]) := rfl
  have h := run_cancellation_stops c8Env 1 _ _ hrun (by decide)
  exact ⟨hrun, by decide, h.1, h.2⟩

def c2Env : OrchEnv :=
  ⟨.ok (), none, fun _ => none, fun _ => false, fun _ => .ok [], .ok false,
   fun _ => 0, 60, fun _ => none, none, none⟩

/-- C2 counterexample: when the advisor client fails (predict raises after
its retries are exhausted, `llmResponse = none`), the run returns
{status: partial, reason: manual_review_required} — not
{status: failure, reason: no_plan} as the claim states. -/
theorem advisor_failure_cex :
    run c2Env 1 = some (⟨"partial", "manual_review_required",
      .obj [("rationale", .str "LLM unavailable or prediction error")]⟩,
      [Ev.scanCall, Ev.checkFlag false, Ev.llmCall])
    ∧ ("partial" : String) ≠ "failure"
    ∧ ("manual_review_required" : String) ≠ "no_plan" :=
  ⟨rfl, by decide, by decide⟩

/-- C2 (amended): for every run in which the advisor client fails after its
bounded transport-layer retries, get_strategy returns the manual-review
dict with rationale "LLM unavailable or prediction error", and the
orchestrator returns {status: partial, reason: manual_review_required}
carrying that rationale in details; the FAILURE("no_plan") guard exists in
the code but is never taken, because get_strategy never returns an empty
value. -/
theorem advisor_failure_manual_review (env : OrchEnv) (fuel : Nat)
    (hscan : env.scanResult = .ok ()) (hsd : env.shutdown 0 = false)
    (hllm : env.llmResponse = none) :
    run env fuel = some (⟨"partial", "manual_review_required",
      .obj [("rationale", .str "LLM unavailable or prediction error")]⟩,
      [Ev.scanCall, Ev.checkFlag false, Ev.llmCall]) := by
  unfold run
  simp only [hscan, hsd, Bool.false_eq_true, if_false, hllm]
  rfl

/-- Witness for C2 (amended). -/
theorem advisor_failure_manual_review_witness :
    c2Env.llmResponse = none
    ∧ run c2Env 1 = some (⟨"partial", "manual_review_required",
        .obj [("rationale", .str "LLM unavailable or prediction error")]⟩,
        [Ev.scanCall, Ev.checkFlag false, Ev.llmCall]) :=
  ⟨rfl, advisor_failure_manual_review c2Env 1 rfl rfl rfl⟩

/-- The vector entry of the returned dict is a string in the allowed enum. -/
def planVectorOK (j : Json) : Bool :=
  match jfield j "vector" with
  | some (.str v) => v == "system" || v == "web"
  | _ => false

theorem validate_decoded_shape (data : List (String × Json)) (req : Bool) :
    isMRDict (validate_decoded data req) = true
    ∨ (isPlanDict (validate_decoded data req) = true
       ∧ planVectorOK (validate_decoded data req) = true
       ∧ (req = true → jfield (validate_decoded data req) "manual_review"
            = some (.bool true))) := by
  unfold validate_decoded
  by_cases hmr : ((jgetD data "manual_review" .null).truthy = true)
  · rw [if_pos hmr]
    left
    rfl
  · rw [if_neg hmr]
    rcases hv : validateStrategySchema data with _ | strat <;> simp only [hv]
    · left
      rfl
    · by_cases hvec : strat.vector = "system" ∨ strat.vector = "web"
      · rw [if_pos hvec]
        right
        cases req with
        | false =>
          simp only [Bool.false_eq_true, if_false]
          refine ⟨rfl, ?_, fun hc => by cases hc⟩
          simp only [planVectorOK, jfield, StrategySchema.toDict, jget]
          rcases hvec with h | h <;> simp [h]
        | true =>
          simp only [if_true]
          refine ⟨?_, ?_, fun _ => ?_⟩
          · simp [isPlanDict, setManualReviewTrue, StrategySchema.toDict,
              strategyKeys]
          · simp only [planVectorOK, jfield, setManualReviewTrue,
              StrategySchema.toDict, List.map, jget]
            rcases hvec with h | h <;> simp [h]
          · simp [jfield, setManualReviewTrue, StrategySchema.toDict, jget]
      · rw [if_neg hvec]
        left
        rfl

theorem get_strategy_shape (decode : String → Option (List (String × Json)))
    (l : Option String) (req : Bool) :
    isMRDict (get_strategy decode l req) = true
    ∨ (isPlanDict (get_strategy decode l req) = true
       ∧ planVectorOK (get_strategy decode l req) = true
       ∧ (req = true → jfield (get_strategy decode l req) "manual_review"
            = some (.bool true))) := by
  unfold get_strategy
  rcases l with _ | raw
  · left
    rfl
  · rcases hx : extract_first_json raw with _ | jt <;> simp only [hx]
    · left
      rfl
    · rcases hd : decode jt with _ | data <;> simp only [hd]
      · left
        rfl
      · exact validate_decoded_shape data req

/-- C10: every value returned by get_strategy is a non-empty mapping of
exactly one of two shapes — the manual-review dict
{"manual_review": True, "rationale": r}, or the fully validated strategy
dict carrying exactly the seven schema keys with its vector in
{"system", "web"} and manual_review forced to True when
require_manual_approval is set.  In particular get_strategy never returns
None or an empty mapping, so the orchestrator's FAILURE("no_plan") branch
guarding an empty plan is unreachable: no run ever returns reason
"no_plan". -/
theorem get_strategy_two_shapes :
    (∀ (decode : String → Option (List (String × Json)))
       (l : Option String) (req : Bool),
      (get_strategy decode l req).truthy = true
      ∧ (isMRDict (get_strategy decode l req) = true
         ∨ (isPlanDict (get_strategy decode l req) = true
            ∧ planVectorOK (get_strategy decode l req) = true
            ∧ (req = true →
                jfield (get_strategy decode l req) "manual_review"
                  = some (.bool true)))))
    ∧ (∀ (env : OrchEnv) (fuel : Nat) (r : RunResult) (tr : List Ev),
        run env fuel = some (r, tr) → r.reason ≠ "no_plan") :=
  ⟨fun decode l req =>
    ⟨get_strategy_truthy decode l req, get_strategy_shape decode l req⟩,
   fun _ _ _ _ h => (run_sound h).2.1⟩

def c10Env : OrchEnv :=
  ⟨.error (.other ⟨"RuntimeError", "boom"⟩), none, fun _ => none,
   fun _ => false, fun _ => .ok [], .ok false, fun _ => 0, 60,
   fun _ => none, none, none⟩

/-- Witness for C10. -/
theorem get_strategy_two_shapes_witness :
    (get_strategy (fun _ => none) none false).truthy = true
    ∧ (spectraFailureResult (.other ⟨"RuntimeError", "boom"⟩)).reason
        ≠ "no_plan" :=
  ⟨(get_strategy_two_shapes.1 (fun _ => none) none false).1,
   get_strategy_two_shapes.2 c10Env 1
     (spectraFailureResult (.other ⟨"RuntimeError", "boom"⟩))
     [Ev.scanCall] rfl⟩
